import Mathlib

/-!
Verification of the post-analysis layer of the `sphinxval` repository
(`sphinxval/utils/post_analysis.py`).

The development shallowly embeds the outcome-classification, column-resolution,
model-filtering and plot-assembly logic of that module:

* `export_all_clear_incorrect` — the four boolean-mode contingency subsets
  (hits, correct negatives, false alarms, misses) built from
  `Observed SEP All Clear` / `Predicted SEP All Clear`.
* `export_max_flux_incorrect` — the predicted-column resolution loop and the
  four continuous-mode subsets built by comparing
  `Observed Max Flux in Prediction Window` and the resolved predicted column
  against the threshold, plus the function head that indexes the unique
  energy-channel/threshold key lists before the emptiness check.
* `read_in_metrics` — the include/exclude model-name filtering, including the
  in-place growth of the caller's `exclude` list and the regex-metacharacter
  escaping of model names.
* `plot_groups` — the static quantity → metric-group catalog.
* `make_box_plots` — the per-metric-column long-form assembly with
  percent scaling, forecast-count suffixing, anonymization and highlighting.

Pandas specifics are modelled as follows.  A possibly-missing cell (NaN) is an
`Option`; every pandas comparison (`==`, `<`, `>=`) is `false` on a missing
value, which is exactly NaN's comparison behaviour.  Python's literal `in`
operator on strings is literal substring containment (`strContains`).
`Series.str.contains(pattern)` performs a regex search, and the source builds
its patterns by escaping only `+`, `(`, `)` in model names, so every other
regex metacharacter a model name carries keeps its regex meaning.  The
embedding's matcher (`reContains`, built on `reMatchAt`/`reSearch`)
implements the regex fragment of literal characters, backslash escapes and
the `.` wildcard: it agrees with Python's `re` on patterns free of the
remaining metacharacters (`^`, `$`, `*`, `?`, square brackets, curly braces,
`|`), and it reproduces the `.`-wildcard behaviour that the partial escaping
lets through.  Floating-point flux values are modelled by `ℚ`; the source
only compares and copies them.
-/

/-- Literal substring containment: `pat` occurs inside `s`.  Models Python's
literal `pat in s` operator on strings. -/
def strContains (s pat : String) : Bool := decide (pat.data <:+: s.data)

/-! ## Boolean-mode classification (`export_all_clear_incorrect`, lines 103-155)

Rows of an `all_clear_selections_*.pkl` table, restricted to the fields the
classification reads.  `obs`/`pred` are the `Observed SEP All Clear` /
`Predicted SEP All Clear` cells, `none` meaning a missing (NaN) entry;
`winStart` stands for the `Prediction Window Start` payload carried along. -/

structure AllClearRow where
  winStart : String
  obs : Option Bool
  pred : Option Bool
deriving DecidableEq

/-- Pandas elementwise `col == True`: `false` on a missing cell. -/
def cellTrue (x : Option Bool) : Bool :=
  match x with
  | some b => b
  | none => false

/-- Pandas elementwise `col == False`: `false` on a missing cell. -/
def cellFalse (x : Option Bool) : Bool :=
  match x with
  | some b => !b
  | none => false

/-- `(df["Observed SEP All Clear"] == False) & (df["Predicted SEP All Clear"] == False)`:
the source's hit selection (line 113). -/
def acHitP (r : AllClearRow) : Bool := cellFalse r.obs && cellFalse r.pred

/-- `(obs == True) & (pred == True)`: the correct-negative selection (line 103). -/
def acCNP (r : AllClearRow) : Bool := cellTrue r.obs && cellTrue r.pred

/-- `(obs == True) & (pred == False)`: the false-alarm selection (line 125). -/
def acFAP (r : AllClearRow) : Bool := cellTrue r.obs && cellFalse r.pred

/-- `(obs == False) & (pred == True)`: the miss selection (line 143). -/
def acMissP (r : AllClearRow) : Bool := cellFalse r.obs && cellTrue r.pred

/-- Both boolean fields present (non-NaN). -/
def acPresent (r : AllClearRow) : Bool := r.obs.isSome && r.pred.isSome

def hits_ac (df : List AllClearRow) : List AllClearRow := df.filter acHitP

def cn_ac (df : List AllClearRow) : List AllClearRow := df.filter acCNP

def fa_ac (df : List AllClearRow) : List AllClearRow := df.filter acFAP

def miss_ac (df : List AllClearRow) : List AllClearRow := df.filter acMissP

/-! ## Continuous-mode classification (`export_max_flux_incorrect`, lines 211-290) -/

/-- Rows of a `max_flux_in_pred_win_selections_*.pkl` table restricted to the
fields the function reads: the `Energy Channel Key` and `Threshold Key`
columns, the `Prediction Window Start` payload, the
`Observed Max Flux in Prediction Window` cell, and the cell of the resolved
predicted-intensity column (the column-name resolution itself is modelled
separately by `resolvePredCol` below). -/
structure MaxFluxRow where
  energyKey : String
  threshKey : String
  winStart : String
  obs : Option ℚ
  pred : Option ℚ
deriving DecidableEq

/-- Pandas elementwise `col >= t`: `false` on a missing (NaN) cell. -/
def oGe (x : Option ℚ) (t : ℚ) : Bool :=
  match x with
  | some v => decide (v ≥ t)
  | none => false

/-- Pandas elementwise `col < t`: `false` on a missing (NaN) cell. -/
def oLt (x : Option ℚ) (t : ℚ) : Bool :=
  match x with
  | some v => decide (v < t)
  | none => false

/-- `(obs >= threshold) & (pred >= threshold)`: the hit selection (line 248). -/
def mfHitP (t : ℚ) (r : MaxFluxRow) : Bool := oGe r.obs t && oGe r.pred t

/-- `(obs < threshold) & (pred < threshold)`: the correct-negative selection (line 236). -/
def mfCNP (t : ℚ) (r : MaxFluxRow) : Bool := oLt r.obs t && oLt r.pred t

/-- `(obs < threshold) & (pred >= threshold)`: the false-alarm selection (line 260). -/
def mfFAP (t : ℚ) (r : MaxFluxRow) : Bool := oLt r.obs t && oGe r.pred t

/-- `(obs >= threshold) & (pred < threshold)`: the miss selection (line 278). -/
def mfMissP (t : ℚ) (r : MaxFluxRow) : Bool := oGe r.obs t && oLt r.pred t

/-- Both numeric fields present (non-NaN). -/
def mfPresent (r : MaxFluxRow) : Bool := r.obs.isSome && r.pred.isSome

def hits_mf (df : List MaxFluxRow) (t : ℚ) : List MaxFluxRow := df.filter (mfHitP t)

def cn_mf (df : List MaxFluxRow) (t : ℚ) : List MaxFluxRow := df.filter (mfCNP t)

def fa_mf (df : List MaxFluxRow) (t : ℚ) : List MaxFluxRow := df.filter (mfFAP t)

def miss_mf (df : List MaxFluxRow) (t : ℚ) : List MaxFluxRow := df.filter (mfMissP t)

/-- One step of the predicted-column search loop (lines 222-229): a column
containing `"Units"` is skipped, otherwise a column containing
`"Predicted SEP Peak Intensity"` overwrites the accumulator. -/
def resolveStep (acc : Option String) (col : String) : Option String :=
  if strContains col "Units" then acc
  else if strContains col "Predicted SEP Peak Intensity" then some col
  else acc

/-- The predicted-column resolution of `export_max_flux_incorrect`
(lines 222-229): `pred_col` starts as `None` and the loop runs over all
column names. -/
def resolvePredCol (columns : List String) : Option String :=
  columns.foldl resolveStep none

/-- A candidate predicted column: contains the quantity substring and does not
contain `"Units"`. -/
def isCandidateCol (col : String) : Bool :=
  !(strContains col "Units") && strContains col "Predicted SEP Peak Intensity"

/-- Modelled from the spec: `resume.identify_unique` (the `resume` module is
not among the provided sources).  Per the spec it returns the distinct values
of a column — here in first-appearance order; on an empty table it returns the
empty list. -/
def addUnique (acc : List String) (m : String) : List String :=
  if m ∈ acc then acc else acc ++ [m]

/-- Modelled from the spec: the distinct values of a column, first-appearance
order (`resume.identify_unique`, whose source is not provided). -/
def identify_unique (l : List String) : List String := l.foldl addUnique []

/-- Outcome of a call to `export_max_flux_incorrect`.  `indexError` is the
`[0]` lookup on an empty unique-key list failing; `emptyMessage` is the guarded
early return that prints the empty-dataframe message; `classified` carries the
four contingency subsets computed by the remainder of the function. -/
inductive MFOutcome where
  | indexError : MFOutcome
  | emptyMessage : MFOutcome
  | classified : List MaxFluxRow → List MaxFluxRow → List MaxFluxRow →
      List MaxFluxRow → MFOutcome
deriving DecidableEq

/-- The head of `export_max_flux_incorrect` (lines 211-218) followed by the
classification: lines 213-214 index `identify_unique(df, ...)[0]` for the
energy-channel and threshold keys *before* the `df.empty` check of line 216,
so an empty table stops at the index lookup.  File I/O and plotting are
dropped; the predicted-column resolution is modelled by `resolvePredCol` and
rows carry the resolved predicted cell. -/
def export_max_flux_incorrect (df : List MaxFluxRow) (threshold : ℚ) : MFOutcome :=
  match (identify_unique (df.map (·.energyKey))).head? with
  | none => MFOutcome.indexError
  | some _ =>
    match (identify_unique (df.map (·.threshKey))).head? with
    | none => MFOutcome.indexError
    | some _ =>
      if df.isEmpty then MFOutcome.emptyMessage
      else MFOutcome.classified (hits_mf df threshold) (cn_mf df threshold)
        (fa_mf df threshold) (miss_mf df threshold)

/-! ## Model filtering (`read_in_metrics`, lines 353-412) -/

/-- A row of a `*_metrics.pkl` table as seen by the filtering logic: the
`Model` column plus the remaining cells, which the filter never reads. -/
structure MetricsRow where
  model : String
  cells : List String
deriving DecidableEq

/-- The distinct model names of the table, `resume.identify_unique(df,'Model')`. -/
def uniqueModels (df : List MetricsRow) : List String :=
  identify_unique (df.map (·.model))

/-- `any(incl_model in model for incl_model in include)`: the inner loop of
lines 386-388 setting `included`. -/
def modelIncluded (incl : List String) (model : String) : Bool :=
  incl.any (fun i => strContains model i)

/-- Lines 382-390: when `include[0] != 'All'`, every distinct model name
matching no include-substring is appended (in place) to the caller's
`exclude` list; the function's later loop then runs over this grown list.
The source indexes `include[0]`, so callers always pass a nonempty `include`.
The returned list is the final state of the caller's mutated list. -/
def effectiveExclude (df : List MetricsRow) (incl exclude : List String) :
    List String :=
  if incl.head? = some "All" then exclude
  else exclude ++ (uniqueModels df).filter (fun m => !(modelIncluded incl m))

/-- `model.replace('+','\+').replace('(','\(').replace(')','\)')` at the
character level: each of `+`, `(`, `)` becomes a backslash-escaped pair
(lines 395-397). -/
def escChar (c : Char) : List Char :=
  if c = '+' ∨ c = '(' ∨ c = ')' then ['\\', c] else [c]

/-- The escaped exclude pattern of lines 395-397. -/
def escapeRe (m : String) : String := ⟨m.data.flatMap escChar⟩

/-- Lines 401-404: the last include entry that contains the *escaped* exclude
pattern as a plain substring (`if model in incl_model`), or `""` if none does.
Note the source compares the escaped string, so an exclude entry containing
`+`, `(` or `)` never matches an include entry here. -/
def conflictInclude (incl : List String) (esc : String) : String :=
  incl.foldl (fun acc i => if strContains i esc then i else acc) ""

/-- Match a regex pattern against a prefix of the string, for the regex
fragment of literal characters, backslash escapes and the `.` wildcard.  A
backslash-escaped character matches itself — the shape `escapeRe` produces —
and `.` matches any single character.  (A trailing lone backslash, which
`escapeRe` never produces, matches nothing.) -/
def reMatchAt : List Char → List Char → Bool
  | [], _ => true
  | a :: p, s =>
    if a = '\\' then
      match p, s with
      | c :: p', d :: s' => decide (d = c) && reMatchAt p' s'
      | _, _ => false
    else if a = '.' then
      match s with
      | _ :: s' => reMatchAt p s'
      | [] => false
    else
      match s with
      | d :: s' => decide (d = a) && reMatchAt p s'
      | [] => false

/-- Regex search: try a match at every position, as `re.search` (and hence
pandas `Series.str.contains`) does. -/
def reSearch : List Char → List Char → Bool
  | p, [] => reMatchAt p []
  | p, d :: s => reMatchAt p (d :: s) || reSearch p s

/-- `Series.str.contains(pat)`: regex search of `pat` anywhere in `s`.  The
patterns the source passes here are model names with `+`, `(`, `)` escaped,
and include entries verbatim; on strings free of the other regex
metacharacters this matcher agrees with Python's `re` (see the header
note). -/
def reContains (s pat : String) : Bool := reSearch pat.data s.data

/-- A character that is not a Python regex metacharacter left unescaped by
the source's escaping of `+`, `(`, `)`.  On model names made of such
characters the escaped pattern denotes literal containment; a name carrying
`.` (or another metacharacter) acts as a regex when it reaches the exclusion
filter. -/
def reSafeChar (c : Char) : Bool :=
  !(c == '.' || c == '^' || c == '$' || c == '*' || c == '?' || c == '\x7b' ||
    c == '\x7d' || c == '[' || c == ']' || c == '\\' || c == '|')

/-- The row predicate of one exclusion pass (lines 406-409): keep rows whose
model does not match the escaped exclude pattern as a regex
(`~df['Model'].str.contains(model)` with `model` already escaped), or — when
an include entry conflicts — also keep rows matching that include entry
(itself passed to `str.contains` unescaped). -/
def excludePred (incl : List String) (m : String) (r : MetricsRow) : Bool :=
  if conflictInclude incl (escapeRe m) = "" then
    !(reContains r.model (escapeRe m))
  else
    !(reContains r.model (escapeRe m)) ||
      reContains r.model (conflictInclude incl (escapeRe m))

/-- One iteration of the exclusion loop (lines 393-410): empty entries are
skipped, otherwise the table is filtered by `excludePred`. -/
def excludeStep (incl : List String) (df : List MetricsRow) (m : String) :
    List MetricsRow :=
  if m = "" then df else df.filter (excludePred incl m)

/-- The filtering core of `read_in_metrics` (lines 382-412), file reading
abstracted away.  The first component is the returned table; the second is
the final state of the caller's `exclude` list, which the source mutates in
place via `exclude.append(model)`. -/
def read_in_metrics_filter (df : List MetricsRow) (incl exclude : List String) :
    List MetricsRow × List String :=
  ((effectiveExclude df incl exclude).foldl (excludeStep incl) df,
    effectiveExclude df incl exclude)

/-! ## Metric-group catalog (`plot_groups`, lines 415-483) -/

def flux_types : List String :=
  ["Onset Peak", "Max Flux", "Fluence", "Max Flux in Prediction Window",
    "Time Profile"]

def time_types : List String :=
  ["Threshold Crossing Time", "Start Time", "End Time", "Onset Peak Time",
    "Max Flux Time"]

/-- The static quantity → metric-group catalog (lines 429-483).  The four
source `if` blocks assign `groups` for disjoint sets of quantities, so the
chain below is equivalent; a quantity matching no block leaves the Python
variable unbound (`none` here). -/
def plot_groups (quantity : String) : Option (List (List String)) :=
  if quantity = "All Clear" then
    some [["All Clear 'True Positives' (Hits)",
           "All Clear 'False Positives' (False Alarms)",
           "All Clear 'True Negatives' (Correct Negatives)",
           "All Clear 'False Negatives' (Misses)"],
          ["Percent Correct", "Bias", "Hit Rate", "False Alarm Rate",
           "Frequency of Misses", "Frequency of Hits"],
          ["Probability of Correct Negatives",
           "Frequency of Correct Negatives", "False Alarm Ratio",
           "Detection Failure Ratio", "Threat Score"],
          ["Gilbert Skill Score", "True Skill Statistic",
           "Heidke Skill Score", "Odds Ratio Skill Score",
           "Symmetric Extreme Dependency Score"],
          ["Number SEP Events Correctly Predicted",
           "Number SEP Events Missed", "Odds Ratio"]]
  else if quantity = "Probability" then
    some [["Brier Score", "Brier Skill Score",
           "Spearman Correlation Coefficient", "Area Under ROC Curve"]]
  else if flux_types.contains quantity then
    some [["Linear Regression Slope",
           "Pearson Correlation Coefficient (Linear)",
           "Pearson Correlation Coefficient (Log)",
           "Spearman Correlation Coefficient (Linear)"],
          ["Mean Error (ME)", "Median Error (MedE)"],
          ["Mean Absolute Error (MAE)",
           "Median Absolute Error (MedAE)",
           "Root Mean Square Error (RMSE)"],
          ["Mean Log Error (MLE)", "Median Log Error (MedLE)"],
          ["Mean Absolute Log Error (MALE)",
           "Median Absolute Log Error (MedALE)",
           "Root Mean Square Log Error (RMSLE)"],
          ["Mean Percent Error (MPE)",
           "Mean Symmetric Percent Error (MSPE)",
           "Mean Symmetric Absolute Percent Error (SMAPE)"],
          ["Mean Absolute Percent Error (MAPE)",
           "Median Symmetric Accuracy (MdSA)",
           "Mean Accuracy Ratio (MAR)"]]
  else if time_types.contains quantity then
    some []
  else none

/-! ## Long-form assembly (`make_box_plots`, lines 530-577)

One energy-channel/threshold sub-table.  Each row carries the `Model` cell,
the `N (Total Number of Forecasts)` cell, and the metric cells keyed by
column name; `hasN` records whether the forecast-count column is present in
the sub-table's schema (when absent the source leaves `nfcasts = []`).
`cfg.in_percent` (module `config`, not among the provided sources) is passed
as the external configuration list it is. -/

structure SubRow where
  model : String
  nf : Nat
  cells : List (String × ℚ)
deriving DecidableEq

structure SubTable where
  rows : List SubRow
  hasN : Bool
deriving DecidableEq

/-- One output row of the long-form table handed to the box-plot backend:
`(metric name, model label, value)`. -/
structure BoxRow where
  metric : String
  model : String
  value : ℚ
deriving DecidableEq

/-- `sub[metric_col].to_list()`: a metric column's values, row order. -/
def colVals (sub : SubTable) (c : String) : List ℚ :=
  sub.rows.map (fun r => ((r.cells.lookup c).getD 0))

/-- `nfcasts`: the forecast-count column when present, else `[]` (lines 543-545). -/
def nfcastsOf (sub : SubTable) : List Nat :=
  if sub.hasN then sub.rows.map (·.nf) else []

/-- Lines 547-549: positional anonymization, `model_list[j] = "Model " + str(j)`. -/
def anonLabels (models : List String) : List String :=
  (List.range models.length).map (fun j => "Model " ++ Nat.repr j)

/-- Lines 551-552: `model_list[jj] += " (" + str(nfcasts[jj]) + ")"` for each
index of `nfcasts` (a no-op when `nfcasts` is empty). -/
def applyNf (models : List String) (nfcasts : List Nat) : List String :=
  (models.zipWith (fun m n => m ++ " (" ++ Nat.repr n ++ ")") nfcasts) ++
    models.drop nfcasts.length

/-- Lines 554-561: with a non-empty highlight, labels containing it are kept
and all others are replaced by `"Models"`. -/
def highlightLabels (hl : String) (models : List String) : List String :=
  models.map (fun m => if strContains m hl then m else "Models")

/-- The model labels of the current metric column just before the highlight
step: the raw `Model` cells with the forecast-count suffix applied. -/
def baseLabels (sub : SubTable) : List String :=
  applyNf (sub.rows.map (·.model)) (nfcastsOf sub)

/-- The processing of one `metric_col` of a group (lines 537-572): percent
scaling, label derivation, anonymization (before the forecast-count suffix,
as in the source), highlighting, and the guarded extension of the output —
a highlighted column with no matching label contributes nothing. -/
def processColumn (inPercent : List String) (sub : SubTable) (metricCol : String)
    (anonymous : Bool) (highlight : String) : List BoxRow :=
  let vals0 := colVals sub metricCol
  let vals := if inPercent.contains metricCol then vals0.map (fun x => x * 100)
    else vals0
  let ml0 := sub.rows.map (·.model)
  let ml1 := if anonymous = true ∧ highlight = "" then anonLabels ml0 else ml0
  let ml2 := applyNf ml1 (nfcastsOf sub)
  if highlight = "" then
    List.zipWith (fun m v => BoxRow.mk metricCol m v) ml2 vals
  else if ml2.any (fun m => strContains m highlight) then
    List.zipWith (fun m v => BoxRow.mk metricCol m v)
      (highlightLabels highlight ml2) vals
  else []

/-- The long-form assembly of one metric group (the `for metric_col in group`
loop, lines 537-572): the per-column outputs concatenated in column order. -/
def make_box_rows (inPercent : List String) (sub : SubTable) (group : List String)
    (anonymous : Bool) (highlight : String) : List BoxRow :=
  group.flatMap (fun mc => processColumn inPercent sub mc anonymous highlight)

/-- A label of the exact shape `"Model " ++ decimal digits`, the
`"Model i"` positional placeholder pattern. -/
def isModelIntLabel (s : String) : Bool :=
  "Model ".data.isPrefixOf s.data && decide (6 < s.data.length) &&
    (s.data.drop 6).all (·.isDigit)

/-! ## General lemmas -/

/-- Four pairwise-exclusive row predicates whose disjunction is `b` split a
table into four sublists that together are a permutation of the `b`-filtered
table. -/
theorem four_filter_perm {α : Type} [DecidableEq α] (p1 p2 p3 p4 b : α → Bool)
    (h : ∀ r, (if p1 r then 1 else 0) + (if p2 r then 1 else 0) +
      (if p3 r then 1 else 0) + (if p4 r then 1 else 0) =
      (if b r then (1 : ℕ) else 0)) (T : List α) :
    (T.filter p1 ++ T.filter p2 ++ T.filter p3 ++ T.filter p4).Perm
      (T.filter b) := by
  rw [List.perm_iff_count]
  intro x
  have hx := h x
  have hc : ∀ p : α → Bool, (T.filter p).count x = if p x then T.count x else 0 := by
    intro p
    by_cases hp : p x = true
    · rw [if_pos hp, List.count_filter hp]
    · rw [if_neg hp, List.count_eq_zero]
      intro hmem
      exact hp (List.mem_filter.mp hmem).2
  simp only [List.count_append, hc]
  by_cases h1 : p1 x = true <;> by_cases h2 : p2 x = true <;>
    by_cases h3 : p3 x = true <;> by_cases h4 : p4 x = true <;>
    by_cases hb : b x = true <;> simp_all

/-- Pointwise exclusivity and coverage of the four boolean-mode selections:
a row lands in exactly one bucket when both All Clear cells are present and in
none otherwise. -/
theorem ac_indicator (r : AllClearRow) :
    (if acHitP r then 1 else 0) + (if acCNP r then 1 else 0) +
      (if acFAP r then 1 else 0) + (if acMissP r then 1 else 0) =
      (if acPresent r then (1 : ℕ) else 0) := by
  rcases r with ⟨w, obs, pred⟩
  rcases obs with _ | b <;> rcases pred with _ | c
  · simp [acHitP, acCNP, acFAP, acMissP, acPresent, cellTrue, cellFalse]
  · simp [acHitP, acCNP, acFAP, acMissP, acPresent, cellTrue, cellFalse]
  · simp [acHitP, acCNP, acFAP, acMissP, acPresent, cellTrue, cellFalse]
  · cases b <;> cases c <;>
      simp [acHitP, acCNP, acFAP, acMissP, acPresent, cellTrue, cellFalse]

/-- Pointwise exclusivity and coverage of the four continuous-mode selections
at a threshold `t`. -/
theorem mf_indicator (t : ℚ) (r : MaxFluxRow) :
    (if mfHitP t r then 1 else 0) + (if mfCNP t r then 1 else 0) +
      (if mfFAP t r then 1 else 0) + (if mfMissP t r then 1 else 0) =
      (if mfPresent r then (1 : ℕ) else 0) := by
  rcases r with ⟨e, k, w, obs, pred⟩
  rcases obs with _ | x <;> rcases pred with _ | y
  · simp [mfHitP, mfCNP, mfFAP, mfMissP, mfPresent, oGe, oLt]
  · simp [mfHitP, mfCNP, mfFAP, mfMissP, mfPresent, oGe, oLt]
  · simp [mfHitP, mfCNP, mfFAP, mfMissP, mfPresent, oGe, oLt]
  · rcases lt_or_le x t with h1 | h1
    · rcases lt_or_le y t with h2 | h2
      · simp [mfHitP, mfCNP, mfFAP, mfMissP, mfPresent, oGe, oLt, h1, h2,
          h1.not_le, h2.not_le]
      · simp [mfHitP, mfCNP, mfFAP, mfMissP, mfPresent, oGe, oLt, h1, h2,
          h1.not_le, not_lt.mpr h2]
    · rcases lt_or_le y t with h2 | h2
      · simp [mfHitP, mfCNP, mfFAP, mfMissP, mfPresent, oGe, oLt, h1, h2,
          not_lt.mpr h1, h2.not_le]
      · simp [mfHitP, mfCNP, mfFAP, mfMissP, mfPresent, oGe, oLt, h1, h2,
          not_lt.mpr h1, not_lt.mpr h2]

/-- C1: for every table and threshold, both the boolean-mode selections of
`export_all_clear_incorrect` and the continuous-mode selections of
`export_max_flux_incorrect` put each row with both observed and predicted
cells present into exactly one of hit / correct negative / false alarm / miss
(and rows missing either cell into none), so the four subsets are pairwise
disjoint and together are a permutation of the rows with both cells
present. -/
theorem C1_outcome_partition :
    (∀ r : AllClearRow,
      (if acHitP r then 1 else 0) + (if acCNP r then 1 else 0) +
        (if acFAP r then 1 else 0) + (if acMissP r then 1 else 0) =
        (if acPresent r then (1 : ℕ) else 0)) ∧
    (∀ T : List AllClearRow,
      (hits_ac T ++ cn_ac T ++ fa_ac T ++ miss_ac T).Perm
        (T.filter acPresent)) ∧
    (∀ (t : ℚ) (r : MaxFluxRow),
      (if mfHitP t r then 1 else 0) + (if mfCNP t r then 1 else 0) +
        (if mfFAP t r then 1 else 0) + (if mfMissP t r then 1 else 0) =
        (if mfPresent r then (1 : ℕ) else 0)) ∧
    (∀ (t : ℚ) (T : List MaxFluxRow),
      (hits_mf T t ++ cn_mf T t ++ fa_mf T t ++ miss_mf T t).Perm
        (T.filter mfPresent)) :=
  ⟨ac_indicator,
    fun T => four_filter_perm _ _ _ _ _ ac_indicator T,
    mf_indicator,
    fun t T => four_filter_perm _ _ _ _ _ (mf_indicator t) T⟩

/-- `col >= t` is antitone in `t` on pandas cells. -/
theorem oGe_mono {x : Option ℚ} {t1 t2 : ℚ} (h : t1 ≤ t2)
    (hx : oGe x t2 = true) : oGe x t1 = true := by
  rcases x with _ | v
  · simp [oGe] at hx
  · simp only [oGe, decide_eq_true_eq, ge_iff_le] at hx ⊢
    exact le_trans h hx

/-- C9: for thresholds `t1 < t2`, a row in the continuous-mode hit subset at
`t2` is in the hit or false-alarm subset at `t1` (in fact in the hit
subset). -/
theorem C9_hit_monotone (T : List MaxFluxRow) (t1 t2 : ℚ) (h : t1 < t2)
    (r : MaxFluxRow) (hr : r ∈ hits_mf T t2) :
    r ∈ hits_mf T t1 ∨ r ∈ fa_mf T t1 := by
  left
  rcases List.mem_filter.mp hr with ⟨hT, hp⟩
  simp only [mfHitP, Bool.and_eq_true] at hp
  refine List.mem_filter.mpr ⟨hT, ?_⟩
  simp only [mfHitP, Bool.and_eq_true]
  exact ⟨oGe_mono h.le hp.1, oGe_mono h.le hp.2⟩

/-- C9 witness: a concrete hit at threshold 2 stays a hit at threshold 1. -/
theorem C9_hit_monotone_witness :
    (1 : ℚ) < 2 ∧
    (⟨"E", "K", "W", some 5, some 5⟩ : MaxFluxRow) ∈
      hits_mf [⟨"E", "K", "W", some 5, some 5⟩] 2 ∧
    ((⟨"E", "K", "W", some 5, some 5⟩ : MaxFluxRow) ∈
        hits_mf [⟨"E", "K", "W", some 5, some 5⟩] 1 ∨
      (⟨"E", "K", "W", some 5, some 5⟩ : MaxFluxRow) ∈
        fa_mf [⟨"E", "K", "W", some 5, some 5⟩] 1) :=
  ⟨by norm_num, by decide,
    C9_hit_monotone [⟨"E", "K", "W", some 5, some 5⟩] 1 2 (by norm_num)
      ⟨"E", "K", "W", some 5, some 5⟩ (by decide)⟩

/-- C10: on an empty table `export_max_flux_incorrect` stops at the `[0]`
index into the empty unique energy-channel-key list — reached before the
`df.empty` check — so the result is the index failure, not the
empty-dataframe early return. -/
theorem C10_empty_index_error (t : ℚ) :
    export_max_flux_incorrect [] t = MFOutcome.indexError := rfl

/-- `getLast?` of a cons, in `Option.or` form. -/
theorem getLast?_cons_or {α : Type} (c : α) (l : List α) :
    (c :: l).getLast? = l.getLast?.or (some c) := by
  cases l with
  | nil => rfl
  | cons b l' =>
    rw [List.getLast?_cons_cons]
    obtain ⟨d, hd⟩ := Option.isSome_iff_exists.mp
      (List.getLast?_isSome.mpr (List.cons_ne_nil b l'))
    rw [hd]
    rfl

/-- The column-search loop computes the last candidate column, with the
accumulator as fallback. -/
theorem resolve_aux (cols : List String) (acc : Option String) :
    cols.foldl resolveStep acc = ((cols.filter isCandidateCol).getLast?).or acc := by
  induction cols generalizing acc with
  | nil => rfl
  | cons c cols ih =>
    by_cases hu : strContains c "Units" = true
    · have h1 : isCandidateCol c = false := by simp [isCandidateCol, hu]
      simp [List.foldl_cons, ih, List.filter_cons, h1, resolveStep, hu]
    · by_cases hp : strContains c "Predicted SEP Peak Intensity" = true
      · have h1 : isCandidateCol c = true := by simp [isCandidateCol, hu, hp]
        simp [List.foldl_cons, ih, List.filter_cons, h1, resolveStep, hu, hp,
          getLast?_cons_or, Option.or_assoc]
      · have h1 : isCandidateCol c = false := by simp [isCandidateCol, hu, hp]
        simp [List.foldl_cons, ih, List.filter_cons, h1, resolveStep, hu, hp]

/-- C2 (amended): predicted-column resolution returns the last non-`Units`
column containing the quantity substring — `none` when no candidate exists,
and silently the *last* candidate when several exist, with no ambiguity
error. -/
theorem C2_resolve_last_candidate (columns : List String) :
    resolvePredCol columns = (columns.filter isCandidateCol).getLast? := by
  rw [resolvePredCol, resolve_aux, Option.or_none]

/-- C2 counterexample: with the two predicted-intensity column names the
source's own comment anticipates, there are two candidates yet resolution
silently succeeds with the later one instead of failing. -/
theorem C2_counterexample :
    (["Predicted SEP Peak Intensity (Onset Peak)",
      "Predicted SEP Peak Intensity Max (Max Flux)"].countP isCandidateCol = 2) ∧
    resolvePredCol
      ["Predicted SEP Peak Intensity (Onset Peak)",
        "Predicted SEP Peak Intensity Max (Max Flux)"] =
      some "Predicted SEP Peak Intensity Max (Max Flux)" := by
  constructor
  · decide
  · decide

/-- C5 counterexample: a flux-valued quantity yields 7 metric groups, not 6. -/
theorem C5_counterexample :
    (plot_groups "Onset Peak").map List.length = some 7 ∧
    (plot_groups "Onset Peak").map List.length ≠ some 6 := by
  constructor
  · rfl
  · decide

/-- C5 (amended): the catalog is the fixed finite map with exactly 5 groups
for All Clear, 1 for Probability, 7 (not 6) for each flux-valued quantity,
and the empty sequence for each time-valued quantity. -/
theorem C5_catalog_sizes :
    (plot_groups "All Clear").map List.length = some 5 ∧
    (plot_groups "Probability").map List.length = some 1 ∧
    (plot_groups "Onset Peak").map List.length = some 7 ∧
    (plot_groups "Max Flux").map List.length = some 7 ∧
    (plot_groups "Fluence").map List.length = some 7 ∧
    (plot_groups "Max Flux in Prediction Window").map List.length = some 7 ∧
    (plot_groups "Time Profile").map List.length = some 7 ∧
    plot_groups "Threshold Crossing Time" = some [] ∧
    plot_groups "Start Time" = some [] ∧
    plot_groups "End Time" = some [] ∧
    plot_groups "Onset Peak Time" = some [] ∧
    plot_groups "Max Flux Time" = some [] :=
  ⟨rfl, rfl, rfl, rfl, rfl, rfl, rfl, rfl, rfl, rfl, rfl, rfl⟩

/-- Rows surviving the whole exclusion loop are rows of the input table. -/
theorem mem_foldl_excludeStep {incl : List String} :
    ∀ (ex : List String) (df : List MetricsRow) (r : MetricsRow),
      r ∈ ex.foldl (excludeStep incl) df → r ∈ df := by
  intro ex
  induction ex with
  | nil => intro df r hr; exact hr
  | cons m ex ih =>
    intro df r hr
    rw [List.foldl_cons] at hr
    have h2 := ih (excludeStep incl df m) r hr
    unfold excludeStep at h2
    by_cases hm : m = ""
    · rwa [if_pos hm] at h2
    · rw [if_neg hm] at h2
      exact (List.mem_filter.mp h2).1

/-- Conjoining a predicate implied by `P` does not change a `P`-filter. -/
theorem filter_and_of_imp {α : Type} (P q : α → Bool)
    (h : ∀ a, P a = true → q a = true) (l : List α) :
    l.filter (fun a => P a && q a) = l.filter P := by
  induction l with
  | nil => rfl
  | cons a l ih =>
    by_cases hP : P a = true
    · simp [List.filter_cons, hP, h a hP, ih]
    · simp [List.filter_cons, hP, ih]

/-- If every nonempty entry of the exclude list keeps all `P`-rows, the
exclusion loop preserves the `P`-filtered subsequence of the table. -/
theorem foldl_excludeStep_filter (incl : List String) (P : MetricsRow → Bool) :
    ∀ ex : List String,
      (∀ m ∈ ex, m ≠ "" → ∀ r : MetricsRow, P r = true →
        excludePred incl m r = true) →
      ∀ df : List MetricsRow,
        (ex.foldl (excludeStep incl) df).filter P = df.filter P := by
  intro ex
  induction ex with
  | nil => intro _ df; rfl
  | cons m ex ih =>
    intro hkeep df
    rw [List.foldl_cons, ih (fun m' hm' => hkeep m' (List.mem_cons_of_mem m hm'))]
    unfold excludeStep
    by_cases hm : m = ""
    · rw [if_pos hm]
    · rw [if_neg hm, List.filter_filter,
        filter_and_of_imp P _ (fun a ha => hkeep m (List.mem_cons_self m ex) hm a ha)]

/-- Escaping is the identity on strings whose characters need no escape. -/
theorem escapeRe_eq_self {m : String} (h : ∀ c ∈ m.data, escChar c = [c]) :
    escapeRe m = m := by
  rcases m with ⟨l⟩
  simp only [escapeRe]
  congr 1
  induction l with
  | nil => rfl
  | cons a l ih =>
    rw [List.flatMap_cons, h a (by simp), ih (fun c hc => h c (by simp [hc]))]
    rfl

/-- Every string contains itself. -/
theorem strContains_self (s : String) : strContains s s = true :=
  decide_eq_true (List.infix_refl s.data)

/-- The empty pattern matches everywhere. -/
theorem reMatchAt_nil (s : List Char) : reMatchAt [] s = true := rfl

/-- One step of the matcher on an escaped character. -/
theorem reMatchAt_esc_cons (c : Char) (p : List Char) (d : Char) (s : List Char) :
    reMatchAt ('\\' :: c :: p) (d :: s) = (decide (d = c) && reMatchAt p s) := rfl

/-- An escaped character does not match the empty string. -/
theorem reMatchAt_esc_nil (c : Char) (p : List Char) :
    reMatchAt ('\\' :: c :: p) [] = false := rfl

/-- One step of the matcher on a plain literal character. -/
theorem reMatchAt_plain_cons {a : Char} (h1 : a ≠ '\\') (h2 : a ≠ '.')
    (p : List Char) (d : Char) (s : List Char) :
    reMatchAt (a :: p) (d :: s) = (decide (d = a) && reMatchAt p s) := by
  rw [reMatchAt.eq_def]
  dsimp only
  rw [if_neg h1, if_neg h2]

/-- A plain literal character does not match the empty string. -/
theorem reMatchAt_plain_nil {a : Char} (h1 : a ≠ '\\') (h2 : a ≠ '.')
    (p : List Char) : reMatchAt (a :: p) [] = false := by
  rw [reMatchAt.eq_def]
  dsimp only
  rw [if_neg h1, if_neg h2]

/-- On a pattern obtained by escaping a metacharacter-free string, the
matcher is exactly prefix comparison with the original string. -/
theorem reMatchAt_escape_iff :
    ∀ (m s : List Char), (∀ c ∈ m, c ≠ '\\' ∧ c ≠ '.') →
      (reMatchAt (m.flatMap escChar) s = true ↔ m <+: s) := by
  intro m
  induction m with
  | nil =>
    intro s h
    simp [reMatchAt_nil, List.nil_prefix]
  | cons a m ih =>
    intro s h
    have ha := h a (List.mem_cons_self a m)
    have ihs := fun s' => ih s' (fun c hc => h c (List.mem_cons_of_mem a hc))
    rw [List.flatMap_cons]
    by_cases hesc : a = '+' ∨ a = '(' ∨ a = ')'
    · rw [show escChar a = ['\\', a] from by rw [escChar, if_pos hesc],
        List.cons_append, List.cons_append, List.nil_append]
      cases s with
      | nil =>
        rw [reMatchAt_esc_nil]
        simp [List.prefix_nil]
      | cons d s' =>
        rw [reMatchAt_esc_cons, Bool.and_eq_true, decide_eq_true_eq,
          List.cons_prefix_cons, ihs s']
        constructor
        · rintro ⟨h1, h2⟩; exact ⟨h1.symm, h2⟩
        · rintro ⟨h1, h2⟩; exact ⟨h1.symm, h2⟩
    · rw [show escChar a = [a] from by rw [escChar, if_neg hesc],
        List.cons_append, List.nil_append]
      cases s with
      | nil =>
        rw [reMatchAt_plain_nil ha.1 ha.2]
        simp [List.prefix_nil]
      | cons d s' =>
        rw [reMatchAt_plain_cons ha.1 ha.2, Bool.and_eq_true, decide_eq_true_eq,
          List.cons_prefix_cons, ihs s']
        constructor
        · rintro ⟨h1, h2⟩; exact ⟨h1.symm, h2⟩
        · rintro ⟨h1, h2⟩; exact ⟨h1.symm, h2⟩

/-- On a pattern obtained by escaping a metacharacter-free string, regex
search is exactly literal (infix) containment of the original string. -/
theorem reSearch_escape_iff (m : List Char) (h : ∀ c ∈ m, c ≠ '\\' ∧ c ≠ '.') :
    ∀ s : List Char, (reSearch (m.flatMap escChar) s = true ↔ m <:+: s) := by
  intro s
  induction s with
  | nil =>
    rw [show reSearch (m.flatMap escChar) [] = reMatchAt (m.flatMap escChar) []
      from rfl]
    rw [reMatchAt_escape_iff m [] h]
    simp [List.prefix_nil, List.infix_nil]
  | cons d s' ih =>
    rw [show reSearch (m.flatMap escChar) (d :: s') =
      (reMatchAt (m.flatMap escChar) (d :: s') ||
        reSearch (m.flatMap escChar) s') from rfl]
    rw [Bool.or_eq_true, reMatchAt_escape_iff m _ h, ih, List.infix_cons_iff]

/-- For a string free of backslashes and dots, `str.contains` of its escaped
form is literal substring containment of the string itself. -/
theorem reContains_escape {m : String} (h : ∀ c ∈ m.data, c ≠ '\\' ∧ c ≠ '.')
    (s : String) : reContains s (escapeRe m) = strContains s m := by
  rw [Bool.eq_iff_iff]
  rw [show reContains s (escapeRe m) =
    reSearch (m.data.flatMap escChar) s.data from rfl]
  rw [reSearch_escape_iff m.data h s.data, strContains]
  constructor
  · exact fun hp => decide_eq_true hp
  · exact fun hd => of_decide_eq_true hd

/-- A regex-safe character is neither a backslash nor a dot. -/
theorem reSafeChar_plain {c : Char} (h : reSafeChar c = true) :
    c ≠ '\\' ∧ c ≠ '.' := by
  by_cases h1 : c = '\\'
  · subst h1
    exact absurd h (by decide)
  · by_cases h2 : c = '.'
    · subst h2
      exact absurd h (by decide)
    · exact ⟨h1, h2⟩

/-- Elements produced by the dedup fold come from the accumulator or the
list. -/
theorem mem_foldl_addUnique :
    ∀ (l acc : List String) (x : String),
      x ∈ l.foldl addUnique acc → x ∈ acc ∨ x ∈ l := by
  intro l
  induction l with
  | nil => intro acc x hx; exact Or.inl hx
  | cons a l ih =>
    intro acc x hx
    rw [List.foldl_cons] at hx
    rcases ih (addUnique acc a) x hx with h | h
    · unfold addUnique at h
      by_cases ha : a ∈ acc
      · rw [if_pos ha] at h
        exact Or.inl h
      · rw [if_neg ha] at h
        rcases List.mem_append.mp h with h | h
        · exact Or.inl h
        · simp only [List.mem_singleton] at h
          exact Or.inr (by simp [h])
    · exact Or.inr (by simp [h])

/-- `identify_unique` returns values of the input list. -/
theorem identify_unique_sub (l : List String) (x : String)
    (hx : x ∈ identify_unique l) : x ∈ l := by
  rcases mem_foldl_addUnique l [] x hx with h | h
  · simp at h
  · exact h

/-- An exclude entry free of unescaped regex metacharacters keeps rows whose
model is exactly `"ModelA-v2"` when the include list is `["ModelA-v2"]`:
either its escaped form occurs literally in `"ModelA-v2"` (then the conflict
rule keeps the row), or it cannot match `"ModelA-v2"` at all. -/
theorem keep_modelAv2_safe (m : String) (r : MetricsRow)
    (hplain : ∀ c ∈ m.data, c ≠ '\\' ∧ c ≠ '.')
    (hr : r.model = "ModelA-v2") : excludePred ["ModelA-v2"] m r = true := by
  unfold excludePred
  have hconf : conflictInclude ["ModelA-v2"] (escapeRe m) =
      (if strContains "ModelA-v2" (escapeRe m) = true then "ModelA-v2" else "") := by
    simp [conflictInclude]
  by_cases hc : strContains "ModelA-v2" (escapeRe m) = true
  · rw [hconf, if_pos hc, if_neg (by decide : ¬(("ModelA-v2" : String) = ""))]
    have h2 : reContains r.model "ModelA-v2" = true := by
      rw [hr]
      decide
    simp [h2]
  · have hnc : reContains r.model (escapeRe m) = false := by
      rw [hr, reContains_escape hplain]
      cases hb : strContains "ModelA-v2" m with
      | false => rfl
      | true =>
        exfalso
        have hinf : m.data <:+: ("ModelA-v2" : String).data := of_decide_eq_true hb
        have hall : ∀ c ∈ ("ModelA-v2" : String).data, escChar c = [c] := by decide
        have heq : escapeRe m = m :=
          escapeRe_eq_self (fun c hcm => hall c (hinf.subset hcm))
        rw [heq] at hc
        exact hc hb
    rw [hconf, if_neg hc]
    simp [hnc]

/-- C7 counterexample: the caller excludes `"ModelA"` and includes
`"ModelA-v2"`, but the table also holds a model named `"ModelA-v."`.  That
name matches no include entry, is appended to the exclude list, fails the
literal conflict check against `"ModelA-v2"`, and then acts as a regex in
which `.` matches any character — removing the explicitly included
`"ModelA-v2"` row.  The retained subset is empty although the table had a
`"ModelA-v2"` row. -/
theorem C7_counterexample :
    ((read_in_metrics_filter [⟨"ModelA-v2", []⟩, ⟨"ModelA-v.", []⟩]
        ["ModelA-v2"] ["ModelA"]).1.filter (fun r => r.model = "ModelA-v2") =
      []) ∧
    (([⟨"ModelA-v2", []⟩, ⟨"ModelA-v.", []⟩] : List MetricsRow).filter
        (fun r => r.model = "ModelA-v2") = [MetricsRow.mk "ModelA-v2" []]) := by
  constructor
  · decide
  · decide

/-- C7 (amended): on tables whose model names are free of the regex
metacharacters the source leaves unescaped (everything but `+`, `(`, `)`),
include `["ModelA-v2"]` with exclude `["ModelA"]` retains the rows of model
`"ModelA-v2"` (in order and multiplicity) and removes every row of model
`"ModelA"`; a table model name carrying such a metacharacter (e.g. `.`) can
instead remove the included rows, see the counterexample. -/
theorem C7_safe_include_wins (df : List MetricsRow)
    (hsafe : ∀ r ∈ df, ∀ c ∈ r.model.data, reSafeChar c = true) :
    ((read_in_metrics_filter df ["ModelA-v2"] ["ModelA"]).1.filter
        (fun r => r.model = "ModelA-v2") =
      df.filter (fun r => r.model = "ModelA-v2")) ∧
    (∀ r ∈ (read_in_metrics_filter df ["ModelA-v2"] ["ModelA"]).1,
      r.model ≠ "ModelA") := by
  have hex : effectiveExclude df ["ModelA-v2"] ["ModelA"] =
      "ModelA" :: (uniqueModels df).filter
        (fun m => !(modelIncluded ["ModelA-v2"] m)) := by
    rw [effectiveExclude, if_neg (by decide)]
    rfl
  constructor
  · refine foldl_excludeStep_filter ["ModelA-v2"] _ _ ?_ df
    intro m hm hne r hPr
    have hr : r.model = "ModelA-v2" := by simpa using hPr
    rw [hex] at hm
    rcases List.mem_cons.mp hm with hmA | hmApp
    · rw [hmA]
      exact keep_modelAv2_safe "ModelA" r (by decide) hr
    · have hmu : m ∈ uniqueModels df := (List.mem_filter.mp hmApp).1
      have hmdf : m ∈ df.map (·.model) := identify_unique_sub _ m hmu
      rcases List.mem_map.mp hmdf with ⟨r', hr', hmod⟩
      refine keep_modelAv2_safe m r ?_ hr
      intro c hc
      exact reSafeChar_plain (hsafe r' hr' c (by rw [hmod]; exact hc))
  · intro r hr hmodel
    have hr1 : r ∈ (effectiveExclude df ["ModelA-v2"] ["ModelA"]).foldl
        (excludeStep ["ModelA-v2"]) df := hr
    rw [hex, List.foldl_cons] at hr1
    have hr2 : r ∈ excludeStep ["ModelA-v2"] df "ModelA" :=
      mem_foldl_excludeStep _ _ r hr1
    unfold excludeStep at hr2
    rw [if_neg (by decide : ¬(("ModelA" : String) = ""))] at hr2
    have hpred := (List.mem_filter.mp hr2).2
    have hfalse : excludePred ["ModelA-v2"] "ModelA" r = false := by
      unfold excludePred
      rw [hmodel]
      decide
    rw [hfalse] at hpred
    exact Bool.false_ne_true hpred

/-- C7 witness: on a concrete metacharacter-free two-row table the
`"ModelA-v2"` row survives and the `"ModelA"` row is gone. -/
theorem C7_safe_include_wins_witness :
    (∀ r ∈ ([⟨"ModelA-v2", []⟩, ⟨"ModelA", []⟩] : List MetricsRow),
      ∀ c ∈ r.model.data, reSafeChar c = true) ∧
    ((read_in_metrics_filter [⟨"ModelA-v2", []⟩, ⟨"ModelA", []⟩]
        ["ModelA-v2"] ["ModelA"]).1.filter (fun r => r.model = "ModelA-v2") =
      ([⟨"ModelA-v2", []⟩, ⟨"ModelA", []⟩] : List MetricsRow).filter
        (fun r => r.model = "ModelA-v2")) ∧
    (MetricsRow.mk "ModelA-v2" []).model ≠ "ModelA" :=
  ⟨by decide,
   (C7_safe_include_wins [⟨"ModelA-v2", []⟩, ⟨"ModelA", []⟩] (by decide)).1,
   (C7_safe_include_wins [⟨"ModelA-v2", []⟩, ⟨"ModelA", []⟩] (by decide)).2
     (MetricsRow.mk "ModelA-v2" []) (by decide)⟩

/-- An exclusion loop over entries that are all empty strings is the
identity. -/
theorem foldl_excludeStep_empty {incl : List String} :
    ∀ ex : List String, (∀ e ∈ ex, e = "") →
      ∀ df : List MetricsRow, ex.foldl (excludeStep incl) df = df := by
  intro ex
  induction ex with
  | nil => intro _ df; rfl
  | cons m ex ih =>
    intro h df
    have hm : m = "" := h m (by simp)
    rw [List.foldl_cons, show excludeStep incl df m = df from by
      rw [excludeStep, if_pos hm]]
    exact ih (fun e he => h e (by simp [he])) df

/-- C3 (amended): with the sentinel include list `["All"]` the include phase
adds nothing to the exclude list (the effective exclude list is exactly the
caller's), but the exclude entries themselves are still applied; the table is
returned unchanged when every exclude entry is the empty string. -/
theorem C3_all_sentinel (df : List MetricsRow) (exclude : List String) :
    effectiveExclude df ["All"] exclude = exclude ∧
    ((∀ e ∈ exclude, e = "") →
      (read_in_metrics_filter df ["All"] exclude).1 = df) := by
  have h1 : effectiveExclude df ["All"] exclude = exclude := by
    rw [effectiveExclude, if_pos (by rfl)]
  refine ⟨h1, fun h => ?_⟩
  show (effectiveExclude df ["All"] exclude).foldl (excludeStep ["All"]) df = df
  rw [h1]
  exact foldl_excludeStep_empty exclude h df

/-- C3 witness: a concrete table passes through unchanged when the exclude
entries are all empty. -/
theorem C3_all_sentinel_witness :
    (∀ e ∈ (["", ""] : List String), e = "") ∧
    (read_in_metrics_filter [⟨"ModelA", []⟩] ["All"] ["", ""]).1 =
      [MetricsRow.mk "ModelA" []] :=
  ⟨by decide,
    (C3_all_sentinel [⟨"ModelA", []⟩] ["", ""]).2 (by decide)⟩

/-- C3 counterexample: with include `["All"]`, a nonempty exclude entry still
removes rows — the table is not returned unchanged. -/
theorem C3_counterexample :
    (read_in_metrics_filter [⟨"ModelA", []⟩] ["All"] ["ModelA"]).1 = [] ∧
    ([] : List MetricsRow) ≠ [MetricsRow.mk "ModelA" []] := by
  constructor
  · decide
  · decide

/-- C4 (amended): when `include[0] != 'All'`, the filter appends to the
caller's exclude list in place: the final state of that list is the caller's
entries extended with table model names matching no include-substring — not a
fresh set leaving the caller's list untouched. -/
theorem C4_exclude_mutation (df : List MetricsRow) (incl exclude : List String)
    (h0 : incl ≠ []) (h1 : incl.head? ≠ some "All") :
    ∃ appended : List String,
      (read_in_metrics_filter df incl exclude).2 = exclude ++ appended ∧
      ∀ m ∈ appended, m ∈ df.map (·.model) ∧ modelIncluded incl m = false := by
  refine ⟨(uniqueModels df).filter (fun m => !(modelIncluded incl m)), ?_, ?_⟩
  · show effectiveExclude df incl exclude = _
    rw [effectiveExclude, if_neg h1]
  · intro m hm
    rcases List.mem_filter.mp hm with ⟨hmem, hni⟩
    exact ⟨identify_unique_sub _ m hmem, by simpa using hni⟩

/-- C4 witness: a concrete call growing the caller's (empty) exclude list. -/
theorem C4_exclude_mutation_witness :
    (["A"] : List String) ≠ [] ∧
    (["A"] : List String).head? ≠ some "All" ∧
    ∃ appended : List String,
      (read_in_metrics_filter [⟨"B", []⟩] ["A"] []).2 = [] ++ appended ∧
      ∀ m ∈ appended, m ∈ [MetricsRow.mk "B" []].map (·.model) ∧
        modelIncluded ["A"] m = false :=
  ⟨by decide, by decide,
    C4_exclude_mutation [⟨"B", []⟩] ["A"] [] (by decide) (by decide)⟩

/-- C4 counterexample: the caller's exclude list, empty at the call, is
`["B"]` afterwards. -/
theorem C4_counterexample :
    (read_in_metrics_filter [⟨"B", []⟩] ["A"] []).2 = ["B"] ∧
    (["B"] : List String) ≠ [] := by
  constructor
  · decide
  · decide

/-- `Nat.digitChar` of a value below 10 is a decimal digit. -/
theorem digitChar_isDigit {m : ℕ} (hm : m < 10) :
    (Nat.digitChar m).isDigit = true := by
  interval_cases m <;> rfl

/-- The characters accumulated by `Nat.toDigitsCore` at base 10 are digits. -/
theorem toDigitsCore_digits :
    ∀ (f n : ℕ) (ds : List Char), (∀ c ∈ ds, c.isDigit = true) →
      ∀ c ∈ Nat.toDigitsCore 10 f n ds, c.isDigit = true := by
  intro f
  induction f with
  | zero =>
    intro n ds hds c hc
    rw [Nat.toDigitsCore] at hc
    exact hds c hc
  | succ f ih =>
    intro n ds hds c hc
    rw [Nat.toDigitsCore] at hc
    by_cases h0 : n / 10 = 0
    · rw [if_pos h0] at hc
      rcases List.mem_cons.mp hc with h | h
      · rw [h]; exact digitChar_isDigit (Nat.mod_lt _ (by norm_num))
      · exact hds c h
    · rw [if_neg h0] at hc
      refine ih (n / 10) _ ?_ c hc
      intro d hd
      rcases List.mem_cons.mp hd with h | h
      · rw [h]; exact digitChar_isDigit (Nat.mod_lt _ (by norm_num))
      · exact hds d h

/-- `Nat.toDigitsCore` never discards its accumulator. -/
theorem toDigitsCore_ne_nil :
    ∀ (f n : ℕ) (ds : List Char), ds ≠ [] → Nat.toDigitsCore 10 f n ds ≠ [] := by
  intro f
  induction f with
  | zero => intro n ds h; rw [Nat.toDigitsCore]; exact h
  | succ f ih =>
    intro n ds h
    rw [Nat.toDigitsCore]
    by_cases h0 : n / 10 = 0
    · rw [if_pos h0]; exact List.cons_ne_nil _ _
    · rw [if_neg h0]; exact ih (n / 10) _ (List.cons_ne_nil _ _)

/-- `str(j)` for a natural number is a nonempty string of decimal digits. -/
theorem repr_data_digits (n : ℕ) :
    (Nat.repr n).data ≠ [] ∧ ∀ c ∈ (Nat.repr n).data, c.isDigit = true := by
  have hdata : (Nat.repr n).data = Nat.toDigits 10 n := rfl
  rw [hdata, Nat.toDigits]
  constructor
  · rw [Nat.toDigitsCore]
    by_cases h0 : n / 10 = 0
    · rw [if_pos h0]; exact List.cons_ne_nil _ _
    · rw [if_neg h0]; exact toDigitsCore_ne_nil _ _ _ (List.cons_ne_nil _ _)
  · exact toDigitsCore_digits _ _ [] (by intro c hc; cases hc)

/-- A list is a Boolean prefix of itself followed by anything. -/
theorem isPrefixOf_append (l m : List Char) : l.isPrefixOf (l ++ m) = true := by
  induction l with
  | nil => simp [List.isPrefixOf]
  | cons a l ih => simp [List.isPrefixOf, ih]

/-- Every positional placeholder `"Model " ++ str(j)` matches the
`"Model " ++ integer` pattern. -/
theorem isModelIntLabel_repr (j : ℕ) :
    isModelIntLabel ("Model " ++ Nat.repr j) = true := by
  have h2 := repr_data_digits j
  unfold isModelIntLabel
  rw [String.data_append]
  have h1 : ("Model ".data).isPrefixOf ("Model ".data ++ (Nat.repr j).data) = true :=
    isPrefixOf_append _ _
  have h6 : ("Model ".data ++ (Nat.repr j).data).drop 6 = (Nat.repr j).data := by
    have hd := List.drop_left "Model ".data (Nat.repr j).data
    rwa [show ("Model ".data).length = 6 from rfl] at hd
  rw [h1, h6]
  have hlen : 6 < ("Model ".data ++ (Nat.repr j).data).length := by
    rw [List.length_append]
    have hp := List.length_pos.mpr h2.1
    have h6l : ("Model ".data).length = 6 := rfl
    omega
  rw [decide_eq_true hlen]
  have hall : ((Nat.repr j).data).all (·.isDigit) = true :=
    List.all_eq_true.mpr (fun c hc => h2.2 c hc)
  rw [hall]
  rfl

/-- Projecting the model label out of the assembled rows of one column gives
back the label list, provided there are at least as many values. -/
theorem map_model_zipWith (mc : String) :
    ∀ (ms : List String) (vs : List ℚ), ms.length = vs.length →
      (List.zipWith (fun m v => BoxRow.mk mc m v) ms vs).map (·.model) = ms := by
  intro ms
  induction ms with
  | nil => intro vs h; rfl
  | cons m ms ih =>
    intro vs h
    cases vs with
    | nil => simp at h
    | cons v vs =>
      simp only [List.zipWith_cons_cons, List.map_cons]
      rw [ih vs (by simpa using h)]

/-- The forecast-count suffix step preserves the number of labels. -/
theorem applyNf_length (ms : List String) (ns : List Nat) :
    (applyNf ms ns).length = ms.length := by
  simp [applyNf, List.length_zipWith]
  omega

/-- One label per row just before the highlight step. -/
theorem baseLabels_length (sub : SubTable) :
    (baseLabels sub).length = sub.rows.length := by
  rw [baseLabels, applyNf_length, List.length_map]

/-- The per-column label list, fully anonymized: with no forecast-count
column and no highlight, the labels of one processed metric column are
exactly the positional placeholders. -/
theorem processColumn_anon_labels (inPercent : List String) (sub : SubTable)
    (metricCol : String) (h : sub.hasN = false) :
    (processColumn inPercent sub metricCol true "").map (·.model) =
      (List.range sub.rows.length).map (fun j => "Model " ++ Nat.repr j) := by
  have hnf : nfcastsOf sub = [] := by rw [nfcastsOf, h, if_neg]; exact Bool.false_ne_true
  have happ : applyNf (anonLabels (sub.rows.map (·.model))) (nfcastsOf sub) =
      anonLabels (sub.rows.map (·.model)) := by
    rw [hnf, applyNf, List.zipWith_nil_right, List.length_nil, List.drop_zero,
      List.nil_append]
  have hvals : (if inPercent.contains metricCol then
      (colVals sub metricCol).map (fun x => x * 100) else
      colVals sub metricCol).length = sub.rows.length := by
    split
    · simp [colVals]
    · simp [colVals]
  rw [processColumn]
  simp only [eq_self_iff_true, and_self, if_true]
  rw [happ]
  rw [map_model_zipWith metricCol _ _ (by
    rw [hvals, anonLabels, List.length_map, List.length_range, List.length_map])]
  rw [anonLabels, List.length_map]

/-- C6 (amended): with `anonymous = true` and an empty highlight, every label
of the assembled output matches the `"Model " ++ integer` placeholder pattern
*provided the forecast-count column is absent*; each column's labels are then
exactly the positional placeholders.  (When the column is present, the
source appends the `" (N)"` suffix after anonymizing, see the
counterexample.) -/
theorem C6_anonymous_labels (inPercent : List String) (sub : SubTable)
    (group : List String) (h : sub.hasN = false) :
    (∀ lbl ∈ (make_box_rows inPercent sub group true "").map (·.model),
      isModelIntLabel lbl = true) ∧
    (∀ metricCol : String,
      (processColumn inPercent sub metricCol true "").map (·.model) =
        (List.range sub.rows.length).map (fun j => "Model " ++ Nat.repr j)) := by
  refine ⟨?_, fun mc => processColumn_anon_labels inPercent sub mc h⟩
  intro lbl hlbl
  rcases List.mem_map.mp hlbl with ⟨row, hrow, hlb⟩
  rcases List.mem_flatMap.mp hrow with ⟨mc, _, hr⟩
  have hm : lbl ∈ (processColumn inPercent sub mc true "").map (·.model) :=
    List.mem_map.mpr ⟨row, hr, hlb⟩
  rw [processColumn_anon_labels inPercent sub mc h] at hm
  rcases List.mem_map.mp hm with ⟨j, _, hlj⟩
  rw [← hlj]
  exact isModelIntLabel_repr j

/-- C6 witness: one anonymized column of a one-row table without the
forecast-count column yields exactly the placeholder `"Model 0"`. -/
theorem C6_anonymous_labels_witness :
    (SubTable.mk [⟨"FooModel", 3, [("MetricX", 5)]⟩] false).hasN = false ∧
    (processColumn [] (SubTable.mk [⟨"FooModel", 3, [("MetricX", 5)]⟩] false)
        "MetricX" true "").map (·.model) =
      (List.range 1).map (fun j => "Model " ++ Nat.repr j) :=
  ⟨rfl,
    (C6_anonymous_labels [] (SubTable.mk [⟨"FooModel", 3, [("MetricX", 5)]⟩] false)
      [] rfl).2 "MetricX"⟩

/-- C6 counterexample: when the forecast-count column is present, the count
suffix is appended *after* anonymization, so the output label is
`"Model 0 (3)"`, which does not match the bare `"Model " ++ integer`
pattern. -/
theorem C6_counterexample :
    (processColumn [] (SubTable.mk [⟨"FooModel", 3, [("MetricX", 5)]⟩] true)
        "MetricX" true "").map (·.model) = ["Model 0 (3)"] ∧
    isModelIntLabel "Model 0 (3)" = false := by
  constructor
  · decide
  · decide

/-- C8: for every metric column processed with a non-empty highlight, the
output labels are exactly the base labels with non-matching ones replaced by
`"Models"` (matching rows keep their label), and a column none of whose
labels contains the highlight contributes zero rows. -/
theorem C8_highlight_labels (inPercent : List String) (sub : SubTable)
    (metricCol : String) (anonymous : Bool) (hl : String) (h : hl ≠ "") :
    ((baseLabels sub).any (fun m => strContains m hl) = true →
      (processColumn inPercent sub metricCol anonymous hl).map (·.model) =
        (baseLabels sub).map
          (fun m => if strContains m hl then m else "Models")) ∧
    ((baseLabels sub).any (fun m => strContains m hl) = false →
      processColumn inPercent sub metricCol anonymous hl = []) := by
  have hhl : (hl = "") = False := by
    simp [h]
  have hml : (if anonymous = true ∧ hl = "" then
      anonLabels (sub.rows.map (·.model)) else sub.rows.map (·.model)) =
      sub.rows.map (·.model) := by
    rw [if_neg]
    rintro ⟨-, h2⟩
    exact h h2
  have hvals : (if inPercent.contains metricCol then
      (colVals sub metricCol).map (fun x => x * 100) else
      colVals sub metricCol).length = sub.rows.length := by
    split
    · simp [colVals]
    · simp [colVals]
  constructor
  · intro hany
    rw [processColumn]
    simp only [hhl, and_false, if_false]
    rw [show applyNf (sub.rows.map (·.model)) (nfcastsOf sub) = baseLabels sub
      from rfl]
    rw [if_pos hany, highlightLabels]
    exact map_model_zipWith metricCol _ _ (by
      rw [hvals, List.length_map, baseLabels_length])
  · intro hnone
    rw [processColumn]
    simp only [hhl, and_false, if_false]
    rw [show applyNf (sub.rows.map (·.model)) (nfcastsOf sub) = baseLabels sub
      from rfl]
    rw [if_neg]
    rw [hnone]
    exact Bool.false_ne_true

/-- C8 witness: `"X"` highlights nothing in a one-row table labelled
`"Alpha"`, so the column contributes zero rows. -/
theorem C8_highlight_labels_witness :
    ("X" : String) ≠ "" ∧
    (baseLabels (SubTable.mk [⟨"Alpha", 0, []⟩] false)).any
      (fun m => strContains m "X") = false ∧
    processColumn [] (SubTable.mk [⟨"Alpha", 0, []⟩] false) "M" false "X" = [] :=
  ⟨by decide, by decide,
    (C8_highlight_labels [] (SubTable.mk [⟨"Alpha", 0, []⟩] false) "M" false "X"
      (by decide)).2 (by decide)⟩
